import Mathlib

/-
Verification of the windowed CDC ingestion pipeline declared in
src/postgres-bigquery-beam.py against its natural-language specification.

The pipeline driver (argument parsing, `json_to_row`, the `run` wiring) is
embedded directly from the source file.  The framework components the spec
describes (fixed windows, watermark tracker, batch committer) have no source
in the repository; they are modelled from the spec's own words and each such
definition is marked `Modelled from the spec:` in its doc comment.

Byte payloads are `List Nat` (byte values); decoded text is `List Nat`
(Unicode code points).  Wall-clock dates are an explicit `Date` argument,
so `date.today()` becomes a parameter of the transform.
-/

namespace PBCdc

/-- A calendar date, the result of Python's `date.today()`. -/
structure Date where
  year : Nat
  month : Nat
  day : Nat
deriving DecidableEq, Repr

/-- The row shape built by `json_to_row.process` (lines 18-21 of the source):
a dict with keys `insert_date` (from `date.today()`) and `json_dat`
(the utf-8-decoded payload, as a list of code points). -/
structure Row where
  insert_date : Date
  json_dat : List Nat
deriving DecidableEq, Repr

/-- The exception raised by Python's `bytes.decode('utf-8')` on malformed
input. -/
inductive DecodeError where
  | unicodeDecodeError
deriving DecidableEq, Repr

/-- Is `b` a UTF-8 continuation byte (0x80..0xBF)? -/
def isCont (b : Nat) : Bool := 0x80 ≤ b && b < 0xC0

/-- Strict UTF-8 decoding of a byte list to a code-point list, as performed by
Python's `bytes.decode('utf-8')`: rejects stray continuation bytes, overlong
encodings (including the C0/C1 and E0/F0 ranges), surrogates (ED A0..BF) and
code points above U+10FFFF (F5..FF).  Returns `none` where Python raises
`UnicodeDecodeError`. -/
def utf8Decode : List Nat → Option (List Nat)
  | [] => some []
  | b :: rest =>
    if b < 0x80 then
      (utf8Decode rest).map (fun cs => b :: cs)
    else if b < 0xC2 then
      none
    else if b < 0xE0 then
      match rest with
      | c1 :: rest2 =>
        if isCont c1 then
          (utf8Decode rest2).map (fun cs => ((b - 0xC0) * 0x40 + (c1 - 0x80)) :: cs)
        else none
      | [] => none
    else if b < 0xF0 then
      match rest with
      | c1 :: c2 :: rest3 =>
        if (if b == 0xE0 then decide (0xA0 ≤ c1) && decide (c1 < 0xC0)
            else if b == 0xED then decide (0x80 ≤ c1) && decide (c1 < 0xA0)
            else isCont c1) && isCont c2 then
          (utf8Decode rest3).map (fun cs =>
            ((b - 0xE0) * 0x1000 + (c1 - 0x80) * 0x40 + (c2 - 0x80)) :: cs)
        else none
      | _ => none
    else if b < 0xF5 then
      match rest with
      | c1 :: c2 :: c3 :: rest4 =>
        if (if b == 0xF0 then decide (0x90 ≤ c1) && decide (c1 < 0xC0)
            else if b == 0xF4 then decide (0x80 ≤ c1) && decide (c1 < 0x90)
            else isCont c1) && isCont c2 && isCont c3 then
          (utf8Decode rest4).map (fun cs =>
            ((b - 0xF0) * 0x40000 + (c1 - 0x80) * 0x1000 + (c2 - 0x80) * 0x40 + (c3 - 0x80)) :: cs)
        else none
      | _ => none
    else none

/-- The code points of the literal prefix `'Payload: '` of the f-string logged
on line 15 of the source. -/
def payloadPrefix : List Nat := [80, 97, 121, 108, 111, 97, 100, 58, 32]

/-- The log line `f'Payload: {dat}'` emitted by `logging.info` on line 15. -/
def payloadLogLine (dat : List Nat) : List Nat := payloadPrefix ++ dat

/-- Outcome of one call of the `process` method: either an uncaught exception
propagating into the pipeline, or an emitted element together with the log
lines written while producing it. -/
inductive POut where
  | raised (e : DecodeError)
  | emitted (log : List (List Nat)) (row : Row)
deriving DecidableEq, Repr

namespace json_to_row

/-- Embedding of `json_to_row.process` (source lines 13-22):
`dat = msg.decode('utf-8')` — no try/except, so a malformed payload raises
`UnicodeDecodeError`; on success the payload is logged and the element is
mapped by `beam.Map(lambda x: ...)` whose lambda ignores its argument and
builds the dict from the closure variables `date.today()` (the explicit
`today` parameter here) and `dat`. -/
def process (today : Date) (msg : List Nat) : POut :=
  match utf8Decode msg with
  | none => POut.raised DecodeError.unicodeDecodeError
  | some dat => POut.emitted [payloadLogLine dat] { insert_date := today, json_dat := dat }

end json_to_row

/-- A pipeline element as delivered by the source: the raw byte payload plus
the event timestamp the framework attaches to it (used only for windowing;
`process` never reads it). -/
structure Element where
  payload : List Nat
  event_time : Nat
deriving DecidableEq, Repr

/-- Applying `json_to_row.process` to a timestamped element: the method
receives only the payload, never the element's event timestamp. -/
def processElement (today : Date) (e : Element) : POut :=
  json_to_row.process today e.payload

/-- The named arguments the parser of `run` knows (source lines 27-37). -/
structure KnownArgs where
  input : String
  output : String
deriving DecidableEq, Repr

/-- `parser.parse_known_args(argv)` restricted to the options the source
declares: `--input` defaults to the sample dataset, `--output` to
`output.txt` (source lines 28-38). -/
def parse_known_args (inputArg outputArg : Option String) : KnownArgs :=
  { input := inputArg.getD "gs://dataflow-samples/shakespeare/kinglear.txt"
    output := outputArg.getD "output.txt" }

/-- `beam.io.BigQueryDisposition` values used for `create_disposition`. -/
inductive CreateDisposition where
  | CREATE_IF_NEEDED
  | CREATE_NEVER
deriving DecidableEq, Repr

/-- The configuration passed to `beam.io.WriteToBigQuery` (source
lines 61-64). -/
structure BigQueryWriteConfig where
  schema : String
  create_disposition : CreateDisposition
deriving DecidableEq, Repr

/-- The pipeline's read stage. -/
inductive Source where
  | readFromPubSub (topic : String)
deriving DecidableEq, Repr

/-- Whether the source yields a bounded collection; a publish/subscribe topic
is unbounded. -/
def Source.isBounded : Source → Bool
  | .readFromPubSub _ => false

/-- The pipeline's write stage.  `writeToText` is what writing to the file
named by `--output` would be; the source never constructs it. -/
inductive Sink where
  | writeToBigQuery (cfg : BigQueryWriteConfig)
  | writeToText (path : String)
deriving DecidableEq, Repr

/-- The pipeline options `run` assembles (source lines 39-48): the job name
appended to `pipeline_args`, the `save_main_session` setup option, and the
standard `streaming` option, whose assignment on line 48 is commented out, so
it keeps the framework default `false` (batch mode). -/
structure PipeOptions where
  job_name : String
  save_main_session : Bool
  streaming : Bool
deriving DecidableEq, Repr

/-- The pipeline assembled inside `with beam.Pipeline(...) as p` (source
lines 52-65): read from Pub/Sub, a fixed 2-second window, `json_to_row`,
write to BigQuery. -/
structure PipelineSpec where
  options : PipeOptions
  source : Source
  windowDuration : Nat
  transformStage : String
  sink : Sink
deriving DecidableEq, Repr

/-- Embedding of `run` (source lines 24-65).  The parsed `known_args` are
bound but never read afterwards: every stage of the pipeline is built from
literals in the source.  `argv` is modelled by its two declared options. -/
def run (inputArg outputArg : Option String) (save_main_session : Bool) : PipelineSpec :=
  let _known_args := parse_known_args inputArg outputArg
  { options :=
      { job_name := "dbz-test-example"
        save_main_session := save_main_session
        streaming := false }
    source := Source.readFromPubSub "dbserver1.inventory.customers"
    windowDuration := 2
    transformStage := "json_to_row"
    sink := Sink.writeToBigQuery
      { schema := "insert_date:DATETIME, json_dat:STRING"
        create_disposition := CreateDisposition.CREATE_IF_NEEDED } }

/-- What the sink does about the target table before writing. -/
inductive TableOutcome where
  | existing
  | created (schema : String)
  | missingError
deriving DecidableEq, Repr

/-- Modelled from the spec: the sink's `ensure_table` collaborator with
create-if-needed disposition (spec sections 4.5 and 6) — the BigQuery-side
handling of an absent target table is framework/service code not in src/.
If the table is absent and the disposition allows, it is created with the
configured schema. -/
def ensure_table (tableExists : Bool) (cfg : BigQueryWriteConfig) : TableOutcome :=
  if tableExists then TableOutcome.existing
  else
    match cfg.create_disposition with
    | CreateDisposition.CREATE_IF_NEEDED => TableOutcome.created cfg.schema
    | CreateDisposition.CREATE_NEVER => TableOutcome.missingError

/-- A fixed-duration tumbling window: the half-open interval
`[start, stop)`. -/
structure Win where
  start : Nat
  stop : Nat
deriving DecidableEq, Repr

/-- Modelled from the spec: the window that `window.FixedWindows(d)` (source
line 57) assigns an event timestamp to — the framework's assigner is not in
src/.  Spec section 4.3: boundaries are
`floor(event_time / windowDuration) * windowDuration`; timestamps and the
duration are in the same integral unit. -/
def windowFor (d t : Nat) : Win :=
  { start := t / d * d, stop := t / d * d + d }

/-- Does window `w` cover timestamp `t` (half-open interval)? -/
def covers (w : Win) (t : Nat) : Bool :=
  decide (w.start ≤ t) && decide (t < w.stop)

/-- Modelled from the spec: the Window Assigner's `assign` (spec
section 4.3), which reuses the buffered window covering `record.event_time`
and creates a new one if none exists.  The buffer is the list of currently
open windows. -/
def assign (d : Nat) (buf : List Win) (t : Nat) : Win × List Win :=
  match buf.find? (fun w => covers w t) with
  | some w => (w, buf)
  | none => (windowFor d t, windowFor d t :: buf)

/-- A buffer is aligned when every window in it was produced by the assigner,
i.e. has the fixed-window boundaries for some timestamp.  Every buffer
reachable from the empty one by `assign` calls is aligned. -/
def Aligned (d : Nat) (buf : List Win) : Prop :=
  ∀ w ∈ buf, ∃ s, w = windowFor d s

/-- Modelled from the spec: the Watermark Tracker's `observe` (spec
section 4.2) — the framework's watermark handling is not in src/.  The
candidate watermark is `min(event_time, low-watermark hint) - safety margin`
(the hint defaults to the event time when the source provides none), and the
update is clamped so the watermark never moves backward. -/
def observe (margin wm event_time : Int) (hint : Option Int) : Int :=
  max wm (min event_time (hint.getD event_time) - margin)

/-- Folding a whole sequence of `observe` calls over the tracker state. -/
def observeAll (margin : Int) : Int → List (Int × Option Int) → Int
  | wm, [] => wm
  | wm, (et, hint) :: rest => observeAll margin (observe margin wm et hint) rest

/-- The records and acknowledgment handles of one closed window handed to the
Batch Committer (spec section 3, "Batch"). -/
structure CWindow where
  records : List (List Nat)
  handles : List Nat
deriving DecidableEq, Repr

/-- Window lifecycle states (spec section 3, "Window"). -/
inductive WState where
  | OPEN
  | CLOSING
  | COMMITTED
  | FAILED
deriving DecidableEq, Repr

/-- Observable events of one commit run, in order: a write attempt carrying
the serialized batch, the sink's durable-write confirmation, a backoff
sleep, and per-handle acknowledgments / negative acknowledgments. -/
inductive Ev where
  | tryWrite (rows : List (List Nat))
  | writeOk
  | sleep (d : Nat)
  | ack (h : Nat)
  | nack (h : Nat)
deriving DecidableEq, Repr

/-- Modelled from the spec: the exponential backoff delay before retry `k`,
with configurable base and cap (spec section 6, `retry_backoff_base/cap`). -/
def backoff (base cap k : Nat) : Nat := min cap (base * 2 ^ k)

/-- Modelled from the spec: the Batch Committer's retry loop (spec
section 4.5) — the framework's commit machinery is not in src/.  `sink k`
is the sink's success/failure response to attempt number `k`; `fuel` is the
number of attempts still allowed.  Each attempt writes the same, unchanged
window contents.  On the sink confirming a durable write the window is
COMMITTED and only then is every handle acknowledged; on exhausting the
attempts the window is FAILED, no acknowledgment is issued, and every
handle is negatively acknowledged for redelivery. -/
def commitFrom (sink : Nat → Bool) (w : CWindow) (base cap : Nat) :
    Nat → Nat → WState × List Ev
  | 0, _ => (WState.FAILED, w.handles.map Ev.nack)
  | fuel + 1, k =>
    if sink k then
      (WState.COMMITTED, Ev.tryWrite w.records :: Ev.writeOk :: w.handles.map Ev.ack)
    else
      ((commitFrom sink w base cap fuel (k + 1)).1,
        Ev.tryWrite w.records :: Ev.sleep (backoff base cap k) ::
          (commitFrom sink w base cap fuel (k + 1)).2)

/-- Modelled from the spec: `commit(window)` with a bound of `maxAttempts`
write attempts (spec sections 4.5 and 6, `max_commit_retries`). -/
def commit (sink : Nat → Bool) (w : CWindow) (base cap maxAttempts : Nat) :
    WState × List Ev :=
  commitFrom sink w base cap maxAttempts 0

/-- Modelled from the spec: committing a sequence of in-flight windows, each
independently (spec section 5: one committer acts on a given window at a
time; windows are committed independently of one another). -/
def commitMany (sink : Nat → Bool) (base cap maxAttempts : Nat) :
    List CWindow → List (WState × List Ev)
  | [] => []
  | w :: ws => commit sink w base cap maxAttempts :: commitMany sink base cap maxAttempts ws

/-- Number of write attempts recorded in an event trace. -/
def countTries : List Ev → Nat
  | [] => 0
  | Ev.tryWrite _ :: rest => countTries rest + 1
  | _ :: rest => countTries rest

/-! Helper lemmas. -/

lemma div_eq_of_covers {d s t : Nat} (hd : 0 < d)
    (h : covers (windowFor d s) t = true) : s / d = t / d := by
  unfold covers windowFor at h
  simp only [Bool.and_eq_true, decide_eq_true_eq] at h
  obtain ⟨h1, h2⟩ := h
  have hle : s / d ≤ t / d := (Nat.le_div_iff_mul_le hd).mpr h1
  have hlt : t / d < s / d + 1 := by
    apply (Nat.div_lt_iff_lt_mul hd).mpr
    calc t < s / d * d + d := h2
      _ = (s / d + 1) * d := by ring
  exact Nat.le_antisymm hle (Nat.lt_succ_iff.mp hlt)

lemma assign_fst {d : Nat} (hd : 0 < d) {buf : List Win} (hb : Aligned d buf)
    (t : Nat) : (assign d buf t).1 = windowFor d t := by
  unfold assign
  cases hfind : List.find? (fun w => covers w t) buf with
  | none => rfl
  | some w =>
    have hmem := List.mem_of_find?_eq_some hfind
    have hcov : covers w t = true := by simpa using List.find?_some hfind
    obtain ⟨s, rfl⟩ := hb w hmem
    have hsd := div_eq_of_covers hd hcov
    show windowFor d s = windowFor d t
    unfold windowFor
    rw [hsd]

lemma ack_not_mem_map_nack {h : Nat} {hs : List Nat} :
    Ev.ack h ∉ hs.map Ev.nack := by
  intro hmem
  obtain ⟨x, _, hx⟩ := List.mem_map.mp hmem
  cases hx

lemma commitFrom_zero (sink : Nat → Bool) (w : CWindow) (base cap k : Nat) :
    commitFrom sink w base cap 0 k = (WState.FAILED, w.handles.map Ev.nack) := rfl

lemma commitFrom_succ_true (sink : Nat → Bool) (w : CWindow)
    (base cap fuel k : Nat) (hs : sink k = true) :
    commitFrom sink w base cap (fuel + 1) k =
      (WState.COMMITTED,
        Ev.tryWrite w.records :: Ev.writeOk :: w.handles.map Ev.ack) := by
  unfold commitFrom
  rw [if_pos hs]

lemma commitFrom_succ_false (sink : Nat → Bool) (w : CWindow)
    (base cap fuel k : Nat) (hs : sink k = false) :
    commitFrom sink w base cap (fuel + 1) k =
      ((commitFrom sink w base cap fuel (k + 1)).1,
        Ev.tryWrite w.records :: Ev.sleep (backoff base cap k) ::
          (commitFrom sink w base cap fuel (k + 1)).2) := by
  simp only [commitFrom]
  rw [if_neg (by simp [hs])]

lemma commitFrom_ack_after_writeOk (sink : Nat → Bool) (w : CWindow)
    (base cap : Nat) :
    ∀ (fuel k h : Nat) (pre post : List Ev),
      (commitFrom sink w base cap fuel k).2 = pre ++ Ev.ack h :: post →
      Ev.writeOk ∈ pre := by
  intro fuel
  induction fuel with
  | zero =>
    intro k h pre post heq
    have heq' : w.handles.map Ev.nack = pre ++ Ev.ack h :: post := heq
    exact absurd
      (by rw [heq']; exact List.mem_append_right _ (List.mem_cons_self _ _))
      (@ack_not_mem_map_nack h w.handles)
  | succ fuel ih =>
    intro k h pre post heq
    by_cases hs : sink k = true
    · rw [commitFrom_succ_true sink w base cap fuel k hs] at heq
      cases pre with
      | nil => simp at heq
      | cons a pre' =>
        cases pre' with
        | nil => simp at heq
        | cons b pre'' =>
          simp only [List.cons_append] at heq
          injection heq with h1 heq
          injection heq with h2 heq
          rw [← h2]
          exact List.mem_cons_of_mem _ (List.mem_cons_self _ _)
    · rw [commitFrom_succ_false sink w base cap fuel k (by simpa using hs)] at heq
      cases pre with
      | nil => simp at heq
      | cons a pre' =>
        cases pre' with
        | nil => simp at heq
        | cons b pre'' =>
          simp only [List.cons_append] at heq
          injection heq with h1 heq
          injection heq with h2 heq
          exact List.mem_cons_of_mem _
            (List.mem_cons_of_mem _ (ih (k + 1) h pre'' post heq))

lemma commitFrom_ack_or_nack (sink : Nat → Bool) (w : CWindow)
    (base cap : Nat) :
    ∀ (fuel k h : Nat), h ∈ w.handles →
      Ev.ack h ∈ (commitFrom sink w base cap fuel k).2 ∨
      Ev.nack h ∈ (commitFrom sink w base cap fuel k).2 := by
  intro fuel
  induction fuel with
  | zero =>
    intro k h hmem
    rw [commitFrom_zero]
    exact Or.inr (List.mem_map_of_mem _ hmem)
  | succ fuel ih =>
    intro k h hmem
    by_cases hs : sink k = true
    · rw [commitFrom_succ_true sink w base cap fuel k hs]
      exact Or.inl (List.mem_cons_of_mem _
        (List.mem_cons_of_mem _ (List.mem_map_of_mem _ hmem)))
    · rw [commitFrom_succ_false sink w base cap fuel k (by simpa using hs)]
      rcases ih (k + 1) h hmem with hin | hin
      · exact Or.inl (List.mem_cons_of_mem _ (List.mem_cons_of_mem _ hin))
      · exact Or.inr (List.mem_cons_of_mem _ (List.mem_cons_of_mem _ hin))

lemma countTries_map_nack (hs : List Nat) :
    countTries (hs.map Ev.nack) = 0 := by
  induction hs with
  | nil => rfl
  | cons a l ih => simpa [countTries] using ih

lemma countTries_map_ack (hs : List Nat) :
    countTries (hs.map Ev.ack) = 0 := by
  induction hs with
  | nil => rfl
  | cons a l ih => simpa [countTries] using ih

lemma commitFrom_countTries (sink : Nat → Bool) (w : CWindow)
    (base cap : Nat) :
    ∀ (fuel k : Nat), countTries (commitFrom sink w base cap fuel k).2 ≤ fuel := by
  intro fuel
  induction fuel with
  | zero =>
    intro k
    rw [commitFrom_zero]
    simp [countTries_map_nack]
  | succ fuel ih =>
    intro k
    by_cases hs : sink k = true
    · rw [commitFrom_succ_true sink w base cap fuel k hs]
      simp [countTries, countTries_map_ack]
    · rw [commitFrom_succ_false sink w base cap fuel k (by simpa using hs)]
      simpa [countTries] using ih (k + 1)

lemma commitFrom_tryWrite_rows (sink : Nat → Bool) (w : CWindow)
    (base cap : Nat) :
    ∀ (fuel k : Nat) (rows : List (List Nat)),
      Ev.tryWrite rows ∈ (commitFrom sink w base cap fuel k).2 →
      rows = w.records := by
  intro fuel
  induction fuel with
  | zero =>
    intro k rows hmem
    rw [commitFrom_zero] at hmem
    obtain ⟨x, _, hx⟩ := List.mem_map.mp hmem
    cases hx
  | succ fuel ih =>
    intro k rows hmem
    by_cases hs : sink k = true
    · rw [commitFrom_succ_true sink w base cap fuel k hs] at hmem
      rcases List.mem_cons.mp hmem with heq | hmem'
      · simpa using heq
      · rcases List.mem_cons.mp hmem' with heq | hmem''
        · cases heq
        · obtain ⟨x, _, hx⟩ := List.mem_map.mp hmem''
          cases hx
    · rw [commitFrom_succ_false sink w base cap fuel k (by simpa using hs)] at hmem
      rcases List.mem_cons.mp hmem with heq | hmem'
      · simpa using heq
      · rcases List.mem_cons.mp hmem' with heq | hmem''
        · cases heq
        · exact ih (k + 1) rows hmem''

lemma commitFrom_sleep_is_backoff (sink : Nat → Bool) (w : CWindow)
    (base cap : Nat) :
    ∀ (fuel k d : Nat),
      Ev.sleep d ∈ (commitFrom sink w base cap fuel k).2 →
      ∃ j, k ≤ j ∧ j < k + fuel ∧ d = backoff base cap j := by
  intro fuel
  induction fuel with
  | zero =>
    intro k d hmem
    rw [commitFrom_zero] at hmem
    obtain ⟨x, _, hx⟩ := List.mem_map.mp hmem
    cases hx
  | succ fuel ih =>
    intro k d hmem
    by_cases hs : sink k = true
    · rw [commitFrom_succ_true sink w base cap fuel k hs] at hmem
      rcases List.mem_cons.mp hmem with heq | hmem'
      · cases heq
      · rcases List.mem_cons.mp hmem' with heq | hmem''
        · cases heq
        · obtain ⟨x, _, hx⟩ := List.mem_map.mp hmem''
          cases hx
    · rw [commitFrom_succ_false sink w base cap fuel k (by simpa using hs)] at hmem
      rcases List.mem_cons.mp hmem with heq | hmem'
      · cases heq
      · rcases List.mem_cons.mp hmem' with heq | hmem''
        · injection heq with h1
          exact ⟨k, le_refl k, by omega, h1⟩
        · obtain ⟨j, hj1, hj2, hj3⟩ := ih (k + 1) d hmem''
          exact ⟨j, by omega, by omega, hj3⟩

lemma commitFrom_all_fail (sink : Nat → Bool) (w : CWindow)
    (base cap : Nat) (hall : ∀ k, sink k = false) :
    ∀ (fuel k : Nat),
      (commitFrom sink w base cap fuel k).1 = WState.FAILED ∧
      (∀ h, Ev.ack h ∉ (commitFrom sink w base cap fuel k).2) := by
  intro fuel
  induction fuel with
  | zero =>
    intro k
    rw [commitFrom_zero]
    exact ⟨rfl, fun h => ack_not_mem_map_nack⟩
  | succ fuel ih =>
    intro k
    rw [commitFrom_succ_false sink w base cap fuel k (hall k)]
    refine ⟨(ih (k + 1)).1, ?_⟩
    intro h hmem
    rcases List.mem_cons.mp hmem with heq | hmem'
    · cases heq
    · rcases List.mem_cons.mp hmem' with heq | hmem''
      · cases heq
      · exact (ih (k + 1)).2 h hmem''

lemma backoff_monotone (base cap k : Nat) :
    backoff base cap k ≤ backoff base cap (k + 1) := by
  unfold backoff
  exact min_le_min (le_refl cap)
    (Nat.mul_le_mul_left base (Nat.pow_le_pow_right (by omega) (Nat.le_succ k)))

lemma commitMany_split (sink : Nat → Bool) (base cap m : Nat) :
    ∀ (ws₁ : List CWindow) (w : CWindow) (ws₂ : List CWindow),
      commitMany sink base cap m (ws₁ ++ w :: ws₂) =
        commitMany sink base cap m ws₁ ++
          commit sink w base cap m :: commitMany sink base cap m ws₂ := by
  intro ws₁ w ws₂
  induction ws₁ with
  | nil => rfl
  | cons a l ih =>
    show commit sink a base cap m :: commitMany sink base cap m (l ++ w :: ws₂) = _
    rw [ih]
    rfl

/-! Claim theorems. -/

/-- C1: every record goes to the fixed tumbling window whose start is
`floor(event_time / windowDuration) * windowDuration` (the pipeline fixes the
duration at 2), and two records with equal `floor(event_time / d)` are
assigned the same window from any reachable assigner buffer, so assignment
does not depend on arrival order. -/
theorem fixed_window_assignment_deterministic :
    ∀ (d : Nat) (b₁ b₂ : List Win) (t₁ t₂ : Nat),
      0 < d → Aligned d b₁ → Aligned d b₂ → t₁ / d = t₂ / d →
      (assign d b₁ t₁).1 = (assign d b₂ t₂).1 ∧
      (assign d b₁ t₁).1.start = t₁ / d * d ∧
      (∀ i o s, (run i o s).windowDuration = 2) := by
  intro d b₁ b₂ t₁ t₂ hd h₁ h₂ hfloor
  refine ⟨?_, ?_, fun _ _ _ => rfl⟩
  · rw [assign_fst hd h₁, assign_fst hd h₂]
    unfold windowFor
    rw [hfloor]
  · rw [assign_fst hd h₁]
    rfl

/-- Witness for C1 at duration 2, timestamps 4 and 5, one empty buffer and
one buffer already holding the window of timestamp 5. -/
theorem fixed_window_assignment_deterministic_witness :
    (assign 2 [] 4).1 = (assign 2 [windowFor 2 5] 5).1 :=
  (fixed_window_assignment_deterministic 2 [] [windowFor 2 5] 4 5
    (by decide)
    (fun w hw => absurd hw (List.not_mem_nil w))
    (fun w hw => ⟨5, List.mem_singleton.mp hw⟩)
    (by decide)).1

/-- C2 counterexample: the byte 0xFF is undecodable, and
`json_to_row.process` raises `UnicodeDecodeError` into the pipeline instead
of producing a tagged dead-letter element — the claimed dead-letter routing
does not exist in the code. -/
theorem malformed_payload_is_not_dead_lettered :
    json_to_row.process ⟨2024, 5, 1⟩ [255] =
      POut.raised DecodeError.unicodeDecodeError := by
  rfl

/-- C2 amended: for every message whose payload is undecodable bytes,
`json_to_row.process` raises `UnicodeDecodeError` into the pipeline; no
tagged failure or dead-letter output is produced. -/
theorem process_raises_on_undecodable :
    ∀ (today : Date) (msg : List Nat),
      utf8Decode msg = none →
      json_to_row.process today msg = POut.raised DecodeError.unicodeDecodeError := by
  intro today msg h
  unfold json_to_row.process
  rw [h]

/-- Witness for the amended C2 at the payload `[255]`. -/
theorem process_raises_on_undecodable_witness :
    json_to_row.process ⟨2024, 5, 2⟩ [255] =
      POut.raised DecodeError.unicodeDecodeError :=
  process_raises_on_undecodable ⟨2024, 5, 2⟩ [255] (by rfl)

/-- C3: the emitted row's `insert_date` is the wall-clock date at the moment
`process` runs, and the output of `process` does not depend on the element's
event timestamp at all. -/
theorem ingest_date_from_processing_time :
    ∀ (today : Date) (p : List Nat) (t₁ t₂ : Nat),
      processElement today ⟨p, t₁⟩ = processElement today ⟨p, t₂⟩ ∧
      (∀ log row, json_to_row.process today p = POut.emitted log row →
        row.insert_date = today) := by
  intro today p t₁ t₂
  constructor
  · rfl
  · intro log row h
    revert h
    unfold json_to_row.process
    cases utf8Decode p with
    | none => intro h; cases h
    | some dat => intro h; cases h; rfl

/-- Witness for C3 at payload `'a'` and two different event timestamps. -/
theorem ingest_date_from_processing_time_witness :
    processElement ⟨2024, 5, 1⟩ ⟨[97], 0⟩ = processElement ⟨2024, 5, 1⟩ ⟨[97], 7⟩ ∧
    (Row.mk ⟨2024, 5, 1⟩ [97]).insert_date = ⟨2024, 5, 1⟩ :=
  ⟨(ingest_date_from_processing_time ⟨2024, 5, 1⟩ [97] 0 7).1,
    (ingest_date_from_processing_time ⟨2024, 5, 1⟩ [97] 0 7).2
      [payloadLogLine [97]] (Row.mk ⟨2024, 5, 1⟩ [97]) (by rfl)⟩

/-- C4: the watermark never decreases across any sequence of `observe`
calls, including out-of-order event times; a call whose candidate watermark
lies below the current one is clamped to the current value. -/
theorem watermark_monotone :
    ∀ (margin wm : Int) (seq : List (Int × Option Int)),
      wm ≤ observeAll margin wm seq ∧
      (∀ et hint, wm ≤ observe margin wm et hint) ∧
      (∀ et hint, min et (hint.getD et) - margin ≤ wm →
        observe margin wm et hint = wm) := by
  intro margin wm seq
  refine ⟨?_, fun et hint => le_max_left _ _, fun et hint h => max_eq_left h⟩
  induction seq generalizing wm with
  | nil => exact le_refl wm
  | cons p rest ih =>
    obtain ⟨et, hint⟩ := p
    exact le_trans (le_max_left _ _) (ih (observe margin wm et hint))

/-- Witness for C4: observing an earlier event time (candidate 4) on a
tracker at 10 is clamped to 10. -/
theorem watermark_monotone_witness :
    observe 1 10 (5 : Int) none = 10 :=
  (watermark_monotone 1 10 []).2.2 5 none (by decide)

/-- C5: in every commit run, an `ack` event can only occur after the sink's
durable-write confirmation, and every handle of the window is eventually
either acknowledged or negatively acknowledged. -/
theorem committer_acks_only_after_durable_commit :
    ∀ (sink : Nat → Bool) (w : CWindow) (base cap m : Nat),
      (∀ h pre post,
        (commit sink w base cap m).2 = pre ++ Ev.ack h :: post →
        Ev.writeOk ∈ pre) ∧
      (∀ h, h ∈ w.handles →
        Ev.ack h ∈ (commit sink w base cap m).2 ∨
        Ev.nack h ∈ (commit sink w base cap m).2) := by
  intro sink w base cap m
  exact ⟨fun h pre post heq => commitFrom_ack_after_writeOk sink w base cap m 0 h pre post heq,
    fun h hmem => commitFrom_ack_or_nack sink w base cap m 0 h hmem⟩

/-- Witness for C5: with a sink that accepts the first attempt, handle 7 of
a one-record window is acknowledged or negatively acknowledged. -/
theorem committer_acks_only_after_durable_commit_witness :
    Ev.ack 7 ∈ (commit (fun _ => true) ⟨[[104]], [7]⟩ 1 8 1).2 ∨
    Ev.nack 7 ∈ (commit (fun _ => true) ⟨[[104]], [7]⟩ 1 8 1).2 :=
  (committer_acks_only_after_durable_commit (fun _ => true) ⟨[[104]], [7]⟩ 1 8 1).2
    7 (by decide)

/-- C6: every write attempt carries the unchanged window contents, the
number of attempts is bounded by the configured maximum, every backoff sleep
is the exponential backoff of some attempt number below the bound and the
backoff sequence is non-decreasing, a sink that fails every attempt leaves
the window FAILED with no acknowledgment issued, and committing a sequence
of in-flight windows treats each window independently. -/
theorem committer_bounded_retry_and_failure :
    ∀ (sink : Nat → Bool) (w : CWindow) (base cap m : Nat),
      (∀ rows, Ev.tryWrite rows ∈ (commit sink w base cap m).2 → rows = w.records) ∧
      countTries (commit sink w base cap m).2 ≤ m ∧
      (∀ d, Ev.sleep d ∈ (commit sink w base cap m).2 →
        ∃ k, k < m ∧ d = backoff base cap k) ∧
      (∀ k, backoff base cap k ≤ backoff base cap (k + 1)) ∧
      ((∀ k, sink k = false) →
        (commit sink w base cap m).1 = WState.FAILED ∧
        (∀ h, Ev.ack h ∉ (commit sink w base cap m).2)) ∧
      (∀ ws₁ ws₂, commitMany sink base cap m (ws₁ ++ w :: ws₂) =
        commitMany sink base cap m ws₁ ++
          commit sink w base cap m :: commitMany sink base cap m ws₂) := by
  intro sink w base cap m
  refine ⟨fun rows hmem => commitFrom_tryWrite_rows sink w base cap m 0 rows hmem,
    commitFrom_countTries sink w base cap m 0,
    ?_,
    fun k => backoff_monotone base cap k,
    fun hall => commitFrom_all_fail sink w base cap hall m 0,
    fun ws₁ ws₂ => commitMany_split sink base cap m ws₁ w ws₂⟩
  intro d hmem
  obtain ⟨j, hj1, hj2, hj3⟩ := commitFrom_sleep_is_backoff sink w base cap m 0 d hmem
  exact ⟨j, by omega, hj3⟩

/-- Witness for C6: a sink failing every attempt leaves the window FAILED
after the 3 allowed attempts. -/
theorem committer_bounded_retry_and_failure_witness :
    (commit (fun _ => false) ⟨[[104]], [7]⟩ 1 8 3).1 = WState.FAILED :=
  ((committer_bounded_retry_and_failure (fun _ => false) ⟨[[104]], [7]⟩ 1 8 3).2.2.2.2.1
    (fun _ => rfl)).1

/-- C7: the pipeline writes to BigQuery with the fixed schema
`insert_date:DATETIME, json_dat:STRING` under the CREATE_IF_NEEDED
disposition, and when the target table is absent the sink creates it with
that fixed schema. -/
theorem bigquery_fixed_schema_create_if_needed :
    ∀ i o s,
      (run i o s).sink = Sink.writeToBigQuery
        { schema := "insert_date:DATETIME, json_dat:STRING"
          create_disposition := CreateDisposition.CREATE_IF_NEEDED } ∧
      ensure_table false
        { schema := "insert_date:DATETIME, json_dat:STRING"
          create_disposition := CreateDisposition.CREATE_IF_NEEDED } =
        TableOutcome.created "insert_date:DATETIME, json_dat:STRING" :=
  fun _ _ _ => ⟨rfl, rfl⟩

/-- C8 counterexample: two invocations of `json_to_row.process` on the same
payload at different wall-clock dates yield different results, because
`insert_date` comes from `date.today()` — so the transform is not
invocation-independent as the claim states. -/
theorem transform_not_invocation_independent :
    json_to_row.process ⟨2024, 1, 1⟩ [97] ≠ json_to_row.process ⟨2024, 1, 2⟩ [97] := by
  decide

/-- C8 amended: `json_to_row.process` is a pure function of the payload and
the processing date: for a fixed processing date, two invocations on the
same payload yield the same log and Record, and across different dates the
emitted Records can differ only in `insert_date` (log and `json_dat`
agree). -/
theorem transform_deterministic_given_date :
    ∀ (d₁ d₂ : Date) (msg : List Nat),
      (d₁ = d₂ → json_to_row.process d₁ msg = json_to_row.process d₂ msg) ∧
      (∀ l₁ r₁ l₂ r₂,
        json_to_row.process d₁ msg = POut.emitted l₁ r₁ →
        json_to_row.process d₂ msg = POut.emitted l₂ r₂ →
        l₁ = l₂ ∧ r₁.json_dat = r₂.json_dat) := by
  intro d₁ d₂ msg
  constructor
  · intro h
    rw [h]
  · intro l₁ r₁ l₂ r₂ h₁ h₂
    revert h₁ h₂
    unfold json_to_row.process
    cases utf8Decode msg with
    | none => intro h₁ _; cases h₁
    | some dat => intro h₁ h₂; cases h₁; cases h₂; exact ⟨rfl, rfl⟩

/-- Witness for the amended C8 at payload `'a'` and two different dates. -/
theorem transform_deterministic_given_date_witness :
    ([payloadLogLine [97]] : List (List Nat)) = [payloadLogLine [97]] ∧
    (Row.mk ⟨2024, 1, 1⟩ [97]).json_dat = (Row.mk ⟨2024, 1, 2⟩ [97]).json_dat :=
  (transform_deterministic_given_date ⟨2024, 1, 1⟩ ⟨2024, 1, 2⟩ [97]).2
    [payloadLogLine [97]] (Row.mk ⟨2024, 1, 1⟩ [97])
    [payloadLogLine [97]] (Row.mk ⟨2024, 1, 2⟩ [97]) (by rfl) (by rfl)

/-- C9: the pipeline `run` builds is the same for every value of the
`--input` and `--output` arguments; it always reads the hardcoded topic
`dbserver1.inventory.customers` and its sink is BigQuery, never a text file
named by `--output`. -/
theorem pipeline_independent_of_cli_args :
    ∀ (i₁ o₁ i₂ o₂ : Option String) (s : Bool),
      run i₁ o₁ s = run i₂ o₂ s ∧
      (run i₁ o₁ s).source = Source.readFromPubSub "dbserver1.inventory.customers" ∧
      (∀ path, (run i₁ o₁ s).sink ≠ Sink.writeToText path) :=
  fun _ _ _ _ _ => ⟨rfl, rfl, fun _ h => Sink.noConfusion h⟩

/-- Witness for C9: two arbitrary choices of the CLI arguments produce the
same pipeline, which does not write to the default `output.txt`. -/
theorem pipeline_independent_of_cli_args_witness :
    run (some "in.txt") (some "out.txt") true = run none none true ∧
    (run (some "in.txt") (some "out.txt") true).sink ≠ Sink.writeToText "output.txt" :=
  ⟨(pipeline_independent_of_cli_args (some "in.txt") (some "out.txt") none none true).1,
    (pipeline_independent_of_cli_args (some "in.txt") (some "out.txt") none none true).2.2
      "output.txt"⟩

/-- C10: `run` never enables the streaming option (the assignment is
commented out in the source), so every invocation builds the pipeline in the
default batch mode, although the source is an unbounded publish/subscribe
topic. -/
theorem streaming_never_enabled :
    ∀ (i o : Option String) (s : Bool),
      (run i o s).options.streaming = false ∧
      (run i o s).source = Source.readFromPubSub "dbserver1.inventory.customers" ∧
      ((run i o s).source).isBounded = false :=
  fun _ _ _ => ⟨rfl, rfl, rfl⟩

end PBCdc
